import Mathlib

/-!
Shallow embedding of `src/camera_handler.rs`: the dual-camera recording
pipeline (`run_recording_blocking`, lines 25-228) and the finalizing
re-encoder (`reencode_video`, lines 231-282).

Scope of the embedding.  The verified properties all concern the main
recording loop (lines 94-182), the finalization that follows it (lines
184-227) and `reencode_video`; the setup phase (directory creation, camera
opening and configuration, temporary-writer creation, lines 26-91) only
precedes them and is not modelled.  Fallible interactions with the outside
world (camera reads, writer writes, file opens, file removal) have their
outcomes fixed by an environment record (`Env`, `ReencEnv`).

The shared `stop_requested : Arc<AtomicBool>` flag is modelled as a function
from poll index to polled value: the loop threads a counter of how many
loads of the flag have been performed, and the `k`-th load observes
`stop k`.  A set-once (monotone) flag that is raised at some moment is the
threshold function `fun i => decide (T <= i)`: loads before the raise (poll
indices `< T`) see `false`, loads after it see `true`.

Wall-clock time is abstracted: `Env.elapsed` stands for
`start_time.elapsed().as_secs_f64()` at finalization, as a rational number
(the `f64` arithmetic of the source is modelled exactly over `ℚ`).  The
per-iteration pacing sleep (lines 172-181) has no observable effect on any
verified property and produces no event.

Externally visible actions are recorded, in program order, as a list of
events `(p, e)` where `p` is the number of flag polls performed when the
action happens.
-/

namespace CameraHandler

deriving instance DecidableEq for Except

/-- Constant `FRAME_WIDTH` (line 20). -/
def FRAME_WIDTH : Nat := 1280

/-- Constant `FRAME_HEIGHT` (line 21). -/
def FRAME_HEIGHT : Nat := 720

/-- Constant `REQUESTED_FPS` (line 22). -/
def REQUESTED_FPS : ℚ := 24

/-- Abstraction of an OpenCV `Mat`: its dimensions plus an identifier
standing for the pixel payload. -/
structure Frame where
  cols : Nat
  rows : Nat
  id : Nat
deriving Repr, DecidableEq

instance : Inhabited Frame := ⟨⟨0, 0, 0⟩⟩

/-- Mirrors `Mat::empty()`: a matrix with no pixels (`Mat::default()` is
empty; a 2-D matrix is empty exactly when a dimension is zero). -/
def Frame.isEmpty (f : Frame) : Bool := f.cols == 0 || f.rows == 0

/-- Result of one `VideoCapture::read` call, which returns `Result<bool>`
and fills a frame buffer: `Except.error ()` is an `Err` from the call
itself, `Except.ok none` is `Ok(false)` (no frame grabbed), and
`Except.ok (some f)` is `Ok(true)` with buffer contents `f`. -/
abbrev CamRead := Except Unit (Option Frame)

/-- Result of one `cap.read` call inside `reencode_video` (line 261):
`frame f` is `Ok(true)` with buffer `f` (possibly empty), `eof` is
`Ok(false)` (end of stream), `err` is `Err(_)`. -/
inductive ReadOut
  | frame (f : Frame)
  | eof
  | err
deriving Repr, DecidableEq

/-- Environment of `reencode_video`: outcomes of its fallible external
interactions.  `width`/`height` are the `CAP_PROP_FRAME_WIDTH` /
`CAP_PROP_FRAME_HEIGHT` values read back from the temporary file (lines
242-243); `stream` is the sequence of results of successive `cap.read`
calls (an exhausted list reads as end-of-stream). -/
structure ReencEnv where
  openTempOk : Bool
  tempIsOpened : Bool
  width : Nat
  height : Nat
  openFinalOk : Bool
  finalIsOpened : Bool
  stream : List ReadOut
  writeFinalOk : Nat → Bool

/-- Environment of the recording loop and finalization. -/
structure Env where
  /-- Value observed by the `k`-th load of `stop_requested`. -/
  stop : Nat → Bool
  /-- Result of the `k`-th `cam0.read` (line 98). -/
  cam0 : Nat → CamRead
  /-- Result of the `k`-th `cam1.read` (line 101). -/
  cam1 : Nat → CamRead
  /-- Whether the `k`-th write to the temporary writer succeeds (line 163). -/
  writeTempOk : Nat → Bool
  /-- `start_time.elapsed().as_secs_f64()` at line 192. -/
  elapsed : ℚ
  /-- Whether `fs::remove_file(&temp_path)` succeeds. -/
  removeTempOk : Bool
  reenc : ReencEnv

/-- Observable events of one run, in program order. -/
inductive Ev
  /-- The loop condition (line 94) was polled `false` and the body entered. -/
  | iterEnter
  /-- Diagnostic for a dropped/empty frame (line 107). -/
  | readFailSkip
  /-- `thread::sleep(Duration::from_millis(ms))` (line 111). -/
  | sleepMs (ms : Nat)
  /-- Dimension-mismatch warning (line 121). -/
  | resizeWarn
  /-- A frame written to the temporary writer (line 163). -/
  | writeTemp (f : Frame)
  /-- The temporary writer released (guard drop, line 206 or unwind). -/
  | releaseTempWriter
  /-- Temporary file opened for reading (line 233). -/
  | openTempRead
  /-- Final `VideoWriter` created with size and rate (line 246). -/
  | openFinalWriter (w h : Nat) (fps : ℚ)
  /-- A frame written to the final writer (line 267). -/
  | writeFinal (f : Frame)
  /-- The final writer released (guard drop, line 279 or unwind). -/
  | releaseFinalWriter
  /-- `fs::remove_file(&temp_path)` invoked (line 213 or 223). -/
  | removeTemp
deriving Repr, DecidableEq

/-- Errors of `reencode_video`, one per `bail!`/`context` exit. -/
inductive ReencError
  | openTempFailed
  | tempNotOpened
  | openFinalFailed
  | finalNotOpened
  | readFrameError
  | writeFinalFailed
deriving Repr, DecidableEq

/-- Errors of `run_recording_blocking` from the loop on, one per
`context`/`bail!` exit of the modelled region. -/
inductive RecError
  | readCam0Failed
  | readCam1Failed
  | hconcatFailed
  | writeTempFailed
  | reencodeFailed (e : ReencError)
  | removeTempFailed
  | noFramesRecorded
deriving Repr, DecidableEq

/-- Mutable state threaded through the recording loop: poll counter for the
stop flag, per-camera read counters, successful-write counter, and the
`frame_count` variable of line 81. -/
structure LoopState where
  polls : Nat
  r0 : Nat
  r1 : Nat
  writes : Nat
  frame_count : Nat
deriving Repr, DecidableEq

/-- `let mut frame_count = 0u64` (line 81); the other counters start at 0. -/
def initState : LoopState := ⟨0, 0, 0, 0, 0⟩

/-- How the loop left one iteration. -/
inductive LoopExit
  | stopped
  | errored (e : RecError)
  | fuelOut
deriving Repr, DecidableEq

/-- Result of one loop iteration: continue with a new state, or halt. -/
inductive StepOut
  | cont (tr : List (Nat × Ev)) (s : LoopState)
  | halt (tr : List (Nat × Ev)) (s : LoopState) (exit : LoopExit)
deriving Repr, DecidableEq

/-- The combined per-iteration frame-drop condition of line 106:
`!read0_ok || !read1_ok || frame0.empty() || frame1.empty()`. -/
def badRead (o0 o1 : Option Frame) : Bool :=
  o0.isNone || o1.isNone || (o0.getD default).isEmpty || (o1.getD default).isEmpty

/-- Events emitted between entering the loop body and the pre-write stop
check when both reads delivered frames: the dimension-mismatch warning of
lines 116-129 fires exactly when either frame differs from the configured
target size. -/
def composeEvents (p : Nat) (f0 f1 : Frame) : List (Nat × Ev) :=
  if f0.cols ≠ FRAME_WIDTH ∨ f0.rows ≠ FRAME_HEIGHT ∨
     f1.cols ≠ FRAME_WIDTH ∨ f1.rows ≠ FRAME_HEIGHT
  then [(p, .iterEnter), (p, .resizeWarn)]
  else [(p, .iterEnter)]

/-- One iteration of the main recording loop (lines 94-182), including the
`while !stop_requested.load(SeqCst)` condition check.

Faithfulness notes, keyed to the source:
* line 106: a read that returns `Ok(false)` or an empty frame takes the
  retry path; an `Err` from `read` itself propagates through `?` (lines
  98-103) and halts with the corresponding context error.
* lines 116-147: on a dimension mismatch the source calls
  `imgproc::resize(&frameN, &mut frameN.clone(), ..)`, resizing into a
  temporary clone that is immediately discarded, so `frame0`/`frame1` are
  left unchanged; the embedding therefore composes the original frames.
  `resize` itself does not fail on the valid non-empty inputs reaching it.
* lines 152-156: `hconcat` of `[frame1, frame0]` requires equal row counts
  and yields a frame of summed width; on mismatch it errors and the `?`
  propagates.
* line 149: `frame_count` is incremented before the pre-write stop check
  (line 158).
* lines 172-181: the pacing sleep has no modelled effect. -/
def loopStep (env : Env) (s : LoopState) : StepOut :=
  if env.stop s.polls then
    .halt [] ⟨s.polls + 1, s.r0, s.r1, s.writes, s.frame_count⟩ .stopped
  else
    match env.cam0 s.r0 with
    | .error _ =>
      .halt [(s.polls + 1, .iterEnter)]
        ⟨s.polls + 1, s.r0 + 1, s.r1, s.writes, s.frame_count⟩
        (.errored .readCam0Failed)
    | .ok o0 =>
      match env.cam1 s.r1 with
      | .error _ =>
        .halt [(s.polls + 1, .iterEnter)]
          ⟨s.polls + 1, s.r0 + 1, s.r1 + 1, s.writes, s.frame_count⟩
          (.errored .readCam1Failed)
      | .ok o1 =>
        if badRead o0 o1 then
          if env.stop (s.polls + 1) then
            .halt [(s.polls + 1, .iterEnter), (s.polls + 1, .readFailSkip)]
              ⟨s.polls + 2, s.r0 + 1, s.r1 + 1, s.writes, s.frame_count⟩ .stopped
          else
            .cont [(s.polls + 1, .iterEnter), (s.polls + 1, .readFailSkip),
                   (s.polls + 2, .sleepMs 50)]
              ⟨s.polls + 2, s.r0 + 1, s.r1 + 1, s.writes, s.frame_count⟩
        else
          if (o1.getD default).rows = (o0.getD default).rows then
            if env.stop (s.polls + 1) then
              .halt (composeEvents (s.polls + 1) (o0.getD default) (o1.getD default))
                ⟨s.polls + 2, s.r0 + 1, s.r1 + 1, s.writes, s.frame_count + 1⟩ .stopped
            else
              if env.writeTempOk s.writes then
                if env.stop (s.polls + 2) then
                  .halt (composeEvents (s.polls + 1) (o0.getD default) (o1.getD default) ++
                      [(s.polls + 2, .writeTemp
                        ⟨(o1.getD default).cols + (o0.getD default).cols,
                         (o1.getD default).rows,
                         Nat.pair (o1.getD default).id (o0.getD default).id⟩)])
                    ⟨s.polls + 3, s.r0 + 1, s.r1 + 1, s.writes + 1, s.frame_count + 1⟩
                    .stopped
                else
                  .cont (composeEvents (s.polls + 1) (o0.getD default) (o1.getD default) ++
                      [(s.polls + 2, .writeTemp
                        ⟨(o1.getD default).cols + (o0.getD default).cols,
                         (o1.getD default).rows,
                         Nat.pair (o1.getD default).id (o0.getD default).id⟩)])
                    ⟨s.polls + 3, s.r0 + 1, s.r1 + 1, s.writes + 1, s.frame_count + 1⟩
              else
                .halt (composeEvents (s.polls + 1) (o0.getD default) (o1.getD default))
                  ⟨s.polls + 2, s.r0 + 1, s.r1 + 1, s.writes, s.frame_count + 1⟩
                  (.errored .writeTempFailed)
          else
            .halt (composeEvents (s.polls + 1) (o0.getD default) (o1.getD default))
              ⟨s.polls + 1, s.r0 + 1, s.r1 + 1, s.writes, s.frame_count + 1⟩
              (.errored .hconcatFailed)

/-- Result of running the capture loop to completion (or out of fuel). -/
structure LoopRes where
  tr : List (Nat × Ev)
  st : LoopState
  exit : LoopExit
deriving Repr, DecidableEq

/-- The main recording loop (lines 94-182), iterated.  `fuel` bounds the
number of iterations; the loop itself has no bound (it spins until the stop
flag or an error), so properties are stated for every fuel. -/
def captureLoop (env : Env) : Nat → LoopState → LoopRes
  | 0, s => ⟨[], s, .fuelOut⟩
  | fuel + 1, s =>
    match loopStep env s with
    | .cont tr s' =>
      let r := captureLoop env fuel s'
      ⟨tr ++ r.tr, r.st, r.exit⟩
    | .halt tr s' ex => ⟨tr, s', ex⟩

/-- The `real_fps` computation of lines 193-197:
`if total_elapsed.as_secs_f64() > 0.0 && frame_count > 0 { frame_count / elapsed } else { REQUESTED_FPS }`. -/
def real_fps (frame_count : Nat) (elapsed : ℚ) : ℚ :=
  if 0 < elapsed ∧ 0 < frame_count then (frame_count : ℚ) / elapsed
  else REQUESTED_FPS

/-- The read-rewrite loop of `reencode_video` (lines 260-278): read frames
until end-of-stream, skip empty frames, write the rest in order; an `Err`
from `read` or from `write` propagates, and the final-writer guard is
released on every exit (explicit drop at line 279, or unwind). -/
def reencLoop (wok : Nat → Bool) (p : Nat) :
    List ReadOut → Nat → List (Nat × Ev) × Except ReencError Unit
  | [], _ => ([(p, .releaseFinalWriter)], .ok ())
  | .eof :: _, _ => ([(p, .releaseFinalWriter)], .ok ())
  | .err :: _, _ => ([(p, .releaseFinalWriter)], .error .readFrameError)
  | .frame f :: rest, w =>
    if f.isEmpty then reencLoop wok p rest w
    else if wok w then
      let r := reencLoop wok p rest (w + 1)
      ((p, .writeFinal f) :: r.1, r.2)
    else ([(p, .releaseFinalWriter)], .error .writeFinalFailed)

/-- `reencode_video` (lines 231-282): open the temporary file for reading,
create the final writer with the dimensions read back from the temporary
file and the passed rate `fps`, then copy the valid frames over.  `p` is
the poll annotation in force (the function polls no flag). -/
def reencode_video (renv : ReencEnv) (fps : ℚ) (p : Nat) :
    List (Nat × Ev) × Except ReencError Unit :=
  if renv.openTempOk then
    if renv.tempIsOpened then
      if renv.openFinalOk then
        if renv.finalIsOpened then
          let r := reencLoop renv.writeFinalOk p renv.stream 0
          ([(p, .openTempRead),
            (p, .openFinalWriter renv.width renv.height fps)] ++ r.1, r.2)
        else ([(p, .openTempRead),
               (p, .openFinalWriter renv.width renv.height fps)],
              .error .finalNotOpened)
      else ([(p, .openTempRead)], .error .openFinalFailed)
    else ([(p, .openTempRead)], .error .tempNotOpened)
  else ([], .error .openTempFailed)

/-- Overall outcome of `run_recording_blocking` from the loop on. -/
inductive Outcome
  /-- `Ok(final_path)` (line 219). -/
  | ok
  | err (e : RecError)
  | fuelOut
deriving Repr, DecidableEq

/-- Trace and outcome of one run. -/
structure RunRes where
  tr : List (Nat × Ev)
  out : Outcome
deriving Repr, DecidableEq

/-- `run_recording_blocking` from the start of the recording loop (line 94)
to its return (lines 219/224), for a given iteration budget `fuel`.

* If the loop body propagates an error, the `VideoWriterGuard` (line 91)
  releases the temporary writer during unwind and the error is returned;
  finalization (lines 184-227) is not reached.
* On a stop-flag exit, line 185 loads the flag once more (for the log
  message), `real_fps` is computed (lines 192-197), the guard is dropped
  (line 206), and then: with at least one counted frame the file is
  re-encoded at `real_fps` and the temporary file removed (lines 209-219,
  each `?` propagating); with zero counted frames the temporary file is
  removed with the result ignored (line 223) and the
  `"No frames recorded"` failure is returned (line 224). -/
def run_recording_blocking (env : Env) (fuel : Nat) : RunRes :=
  let r := captureLoop env fuel initState
  match r.exit with
  | .fuelOut => ⟨r.tr, .fuelOut⟩
  | .errored e => ⟨r.tr ++ [(r.st.polls, .releaseTempWriter)], .err e⟩
  | .stopped =>
    let p := r.st.polls + 1
    let fps := real_fps r.st.frame_count env.elapsed
    if 0 < r.st.frame_count then
      let rr := reencode_video env.reenc fps p
      match rr.2 with
      | .error e =>
        ⟨r.tr ++ [(p, .releaseTempWriter)] ++ rr.1, .err (.reencodeFailed e)⟩
      | .ok _ =>
        if env.removeTempOk then
          ⟨r.tr ++ [(p, .releaseTempWriter)] ++ rr.1 ++ [(p, .removeTemp)], .ok⟩
        else
          ⟨r.tr ++ [(p, .releaseTempWriter)] ++ rr.1 ++ [(p, .removeTemp)],
           .err .removeTempFailed⟩
    else
      ⟨r.tr ++ [(p, .releaseTempWriter), (p, .removeTemp)],
       .err .noFramesRecorded⟩

/-- Events that the capture loop itself can emit. -/
def Ev.isLoopEv : Ev → Bool
  | .iterEnter | .readFailSkip | .sleepMs _ | .resizeWarn | .writeTemp _ => true
  | _ => false

/-- Recognizer for temporary-file frame writes. -/
def Ev.isWriteTemp : Ev → Bool
  | .writeTemp _ => true
  | _ => false

/-- Number of frames written to the temporary writer in a trace. -/
def writeTempCount (tr : List (Nat × Ev)) : Nat :=
  tr.countP fun pe => pe.2.isWriteTemp

/-- The frames written to the final writer in a trace, in order. -/
def writtenFinal (tr : List (Nat × Ev)) : List Frame :=
  tr.filterMap fun pe =>
    match pe.2 with
    | .writeFinal f => some f
    | _ => none

/-- The frames written to the temporary writer in a trace, in order. -/
def writtenTemp (tr : List (Nat × Ev)) : List Frame :=
  tr.filterMap fun pe =>
    match pe.2 with
    | .writeTemp f => some f
    | _ => none

/-- Modelled from the spec (section 4.2): the sequence of valid (non-empty)
frames of the temporary file, in order, up to end-of-stream.  This is the
spec-side description of what the re-encoder must write, to be compared
with the frames `reencode_video` actually writes. -/
def specValidFrames : List ReadOut → List Frame
  | [] => []
  | .eof :: _ => []
  | .err :: _ => []
  | .frame f :: rest =>
    if f.isEmpty then specValidFrames rest else f :: specValidFrames rest

/-! ### Concrete test environments

Used to witness reachability: a healthy run stopped after one frame, a
mismatched-dimension run, an immediately stopped run, a camera-error run, a
failing-writer run, and a dropped-frame run. -/

/-- A healthy re-encode environment for a one-frame 2560x720 capture. -/
def renvG : ReencEnv :=
  { openTempOk := true, tempIsOpened := true, width := 2560, height := 720
  , openFinalOk := true, finalIsOpened := true
  , stream := [.frame ⟨2560, 720, 0⟩, .eof], writeFinalOk := fun _ => true }

/-- Healthy run: both cameras deliver 1280x720 frames, the stop flag is
raised between the first pre-write poll and the first post-write poll
(threshold 2), all writes succeed, two seconds elapse. -/
def envG : Env :=
  { stop := fun i => decide (2 ≤ i)
  , cam0 := fun _ => .ok (some ⟨1280, 720, 0⟩)
  , cam1 := fun _ => .ok (some ⟨1280, 720, 0⟩)
  , writeTempOk := fun _ => true
  , elapsed := 2
  , removeTempOk := true
  , reenc := renvG }

/-- Mismatched-dimension run: both cameras deliver 640x480 frames. -/
def envC4 : Env :=
  { stop := fun i => decide (2 ≤ i)
  , cam0 := fun _ => .ok (some ⟨640, 480, 0⟩)
  , cam1 := fun _ => .ok (some ⟨640, 480, 0⟩)
  , writeTempOk := fun _ => true
  , elapsed := 2
  , removeTempOk := true
  , reenc := renvG }

/-- Stop flag already set before the first iteration. -/
def envE : Env :=
  { stop := fun _ => true
  , cam0 := fun _ => .ok none, cam1 := fun _ => .ok none
  , writeTempOk := fun _ => true, elapsed := 0, removeTempOk := true
  , reenc := renvG }

/-- Camera 0's first read returns an error result. -/
def envErr : Env :=
  { stop := fun _ => false
  , cam0 := fun _ => .error (), cam1 := fun _ => .ok none
  , writeTempOk := fun _ => true, elapsed := 0, removeTempOk := true
  , reenc := renvG }

/-- The first write to the temporary writer fails. -/
def envW : Env :=
  { stop := fun _ => false
  , cam0 := fun _ => .ok (some ⟨1280, 720, 0⟩)
  , cam1 := fun _ => .ok (some ⟨1280, 720, 0⟩)
  , writeTempOk := fun _ => false
  , elapsed := 2, removeTempOk := true, reenc := renvG }

/-- Camera 0 drops its first frame (read returns no frame), then recovers;
the stop flag is raised at poll threshold 2. -/
def envR : Env :=
  { stop := fun i => decide (2 ≤ i)
  , cam0 := fun k => if k == 0 then .ok none else .ok (some ⟨1280, 720, 0⟩)
  , cam1 := fun _ => .ok (some ⟨1280, 720, 1⟩)
  , writeTempOk := fun _ => true
  , elapsed := 2, removeTempOk := true, reenc := renvG }

/-- A re-encode environment whose stream holds an empty frame between two
valid ones. -/
def renvC5 : ReencEnv :=
  { openTempOk := true, tempIsOpened := true, width := 2560, height := 720
  , openFinalOk := true, finalIsOpened := true
  , stream := [.frame ⟨2560, 720, 5⟩, .frame ⟨0, 0, 9⟩, .frame ⟨2560, 720, 7⟩, .eof]
  , writeFinalOk := fun _ => true }

/-! ### General list helpers -/

/-- An element followed by a nonempty tail is in `dropLast`. -/
theorem mem_dropLast_of_split {α : Type _} {tr pre post : List α} {x : α}
    (h : tr = pre ++ x :: post) (hpost : post ≠ []) : x ∈ tr.dropLast := by
  subst h
  rw [List.dropLast_append_cons, List.dropLast_cons_of_ne_nil hpost]
  simp

/-- If a split point is not in the left part of an append, every element of
the left part sits inside the split's prefix. -/
theorem mem_left_of_append_split {α : Type _} {c r pre post : List α} {x y : α}
    (h : c ++ r = pre ++ y :: post) (hy : y ∉ c) (hx : x ∈ c) : x ∈ pre := by
  rcases List.append_eq_append_iff.mp h with ⟨a, ha, _⟩ | ⟨a, ha, hb⟩
  · subst ha; exact List.mem_append_left _ hx
  · cases a with
    | nil => simp at ha; subst ha; exact hx
    | cons z zs =>
      cases hb
      exact absurd (ha ▸ List.mem_append_right pre (List.mem_cons_self _ _)) hy

/-! ### Per-iteration facts about `loopStep` -/

theorem composeEvents_mem {p : Nat} {f0 f1 : Frame} {pe : Nat × Ev}
    (h : pe ∈ composeEvents p f0 f1) :
    pe = (p, Ev.iterEnter) ∨ pe = (p, Ev.resizeWarn) := by
  unfold composeEvents at h
  split at h <;> simp_all

theorem composeEvents_no_writeTemp {p : Nat} {f0 f1 : Frame} {b : Nat} {g : Frame} :
    (b, Ev.writeTemp g) ∉ composeEvents p f0 f1 := by
  intro h
  rcases composeEvents_mem h with h | h <;> simp at h

theorem composeEvents_countP {p : Nat} {f0 f1 : Frame} :
    (composeEvents p f0 f1).countP (fun pe => pe.2.isWriteTemp) = 0 := by
  rw [List.countP_eq_zero]
  intro pe hpe
  rcases composeEvents_mem hpe with h | h <;> simp [h, Ev.isWriteTemp]

theorem composeEvents_loopEv {p : Nat} {f0 f1 : Frame} {pe : Nat × Ev}
    (h : pe ∈ composeEvents p f0 f1) : pe.2.isLoopEv = true := by
  rcases composeEvents_mem h with h | h <;> simp [h, Ev.isLoopEv]

/-- When the loop condition polls `true`, the iteration exits at once:
no event, no read, no write, no count change. -/
theorem loopStep_of_stop {env : Env} {s : LoopState} (h : env.stop s.polls = true) :
    loopStep env s =
      .halt [] ⟨s.polls + 1, s.r0, s.r1, s.writes, s.frame_count⟩ .stopped := by
  simp [loopStep, h]

/-- Facts about any halting iteration: a temporary-file write can only be
the last event of its chunk; the write counter grows by at most one and
only together with `frame_count`; `frame_count` grows by at most one; the
chunk counts its writes; all events are loop events; the exit is never the
fuel marker; the poll counter does not decrease. -/
theorem loopStep_halt_spec {env : Env} {s : LoopState} {tr : List (Nat × Ev)}
    {s' : LoopState} {ex : LoopExit} (h : loopStep env s = .halt tr s' ex) :
    (∀ b g, (b, Ev.writeTemp g) ∉ tr.dropLast) ∧
    ((s'.writes = s.writes ∧
        (s'.frame_count = s.frame_count ∨ s'.frame_count = s.frame_count + 1)) ∨
      (s'.writes = s.writes + 1 ∧ s'.frame_count = s.frame_count + 1)) ∧
    writeTempCount tr = s'.writes - s.writes ∧
    (∀ pe ∈ tr, pe.2.isLoopEv = true) ∧
    ex ≠ .fuelOut ∧ s.polls ≤ s'.polls := by
  unfold loopStep at h
  split at h
  · cases h
    exact ⟨by simp, Or.inl ⟨rfl, Or.inl rfl⟩, by simp [writeTempCount],
      by simp, by simp, by dsimp only; omega⟩
  · split at h
    · cases h
      refine ⟨by simp, Or.inl ⟨rfl, Or.inl rfl⟩,
        by simp [writeTempCount, Ev.isWriteTemp], ?_, by simp, by dsimp only; omega⟩
      intro pe hpe
      simp only [List.mem_singleton] at hpe
      simp [hpe, Ev.isLoopEv]
    · split at h
      · cases h
        refine ⟨by simp, Or.inl ⟨rfl, Or.inl rfl⟩,
          by simp [writeTempCount, Ev.isWriteTemp], ?_, by simp, by dsimp only; omega⟩
        intro pe hpe
        simp only [List.mem_singleton] at hpe
        simp [hpe, Ev.isLoopEv]
      · split at h
        · split at h
          · cases h
            refine ⟨by simp, Or.inl ⟨rfl, Or.inl rfl⟩,
              by simp [writeTempCount, Ev.isWriteTemp], ?_, by simp, by dsimp only; omega⟩
            intro pe hpe
            simp at hpe
            rcases hpe with hpe | hpe <;> simp [hpe, Ev.isLoopEv]
          · simp at h
        · split at h
          · split at h
            · cases h
              refine ⟨?_, Or.inl ⟨rfl, Or.inr rfl⟩,
                by simp [writeTempCount, composeEvents_countP],
                fun pe hpe => composeEvents_loopEv hpe, by simp, by dsimp only; omega⟩
              intro b g hbg
              exact composeEvents_no_writeTemp (List.dropLast_subset _ hbg)
            · split at h
              · split at h
                · cases h
                  refine ⟨?_, Or.inr ⟨rfl, rfl⟩, ?_, ?_, by simp, by dsimp only; omega⟩
                  · intro b g
                    rw [List.dropLast_concat]
                    exact composeEvents_no_writeTemp
                  · unfold writeTempCount
                    rw [List.countP_append, composeEvents_countP]
                    simp [Ev.isWriteTemp]
                  · intro pe hpe
                    rcases List.mem_append.mp hpe with hpe | hpe
                    · exact composeEvents_loopEv hpe
                    · simp only [List.mem_singleton] at hpe
                      simp [hpe, Ev.isLoopEv]
                · simp at h
              · cases h
                refine ⟨?_, Or.inl ⟨rfl, Or.inr rfl⟩,
                  by simp [writeTempCount, composeEvents_countP],
                  fun pe hpe => composeEvents_loopEv hpe, by simp, by dsimp only; omega⟩
                intro b g hbg
                exact composeEvents_no_writeTemp (List.dropLast_subset _ hbg)
          · cases h
            refine ⟨?_, Or.inl ⟨rfl, Or.inr rfl⟩,
              by simp [writeTempCount, composeEvents_countP],
              fun pe hpe => composeEvents_loopEv hpe, by simp, by dsimp only; omega⟩
            intro b g hbg
            exact composeEvents_no_writeTemp (List.dropLast_subset _ hbg)

/-- Facts about any continuing iteration: every temporary-file write in its
chunk happened right before a stop poll that read `false`; the write
counter and `frame_count` grow together by zero or one; the chunk counts
its writes; all events are loop events; the poll counter grows by at least
two. -/
theorem loopStep_cont_spec {env : Env} {s : LoopState} {tr : List (Nat × Ev)}
    {s' : LoopState} (h : loopStep env s = .cont tr s') :
    (∀ b g, (b, Ev.writeTemp g) ∈ tr → env.stop b = false) ∧
    ((s'.writes = s.writes ∧ s'.frame_count = s.frame_count) ∨
      (s'.writes = s.writes + 1 ∧ s'.frame_count = s.frame_count + 1)) ∧
    writeTempCount tr = s'.writes - s.writes ∧
    (∀ pe ∈ tr, pe.2.isLoopEv = true) ∧
    s.polls + 2 ≤ s'.polls := by
  unfold loopStep at h
  split at h
  · simp at h
  · split at h
    · simp at h
    · split at h
      · simp at h
      · split at h
        · split at h
          · simp at h
          · cases h
            refine ⟨?_, Or.inl ⟨rfl, rfl⟩,
              by simp [writeTempCount, Ev.isWriteTemp], ?_, by dsimp only; omega⟩
            · intro b g hbg
              simp at hbg
            · intro pe hpe
              simp at hpe
              rcases hpe with hpe | hpe | hpe <;> simp [hpe, Ev.isLoopEv]
        · split at h
          · split at h
            · simp at h
            · split at h
              · split at h
                · simp at h
                · rename_i hpost
                  cases h
                  refine ⟨?_, Or.inr ⟨rfl, rfl⟩, ?_, ?_, by dsimp only; omega⟩
                  · intro b g hbg
                    rcases List.mem_append.mp hbg with hbg | hbg
                    · exact absurd hbg composeEvents_no_writeTemp
                    · simp only [List.mem_singleton, Prod.mk.injEq] at hbg
                      rcases hbg with ⟨hb, _⟩
                      subst hb
                      simpa using hpost
                  · unfold writeTempCount
                    rw [List.countP_append, composeEvents_countP]
                    simp [Ev.isWriteTemp]
                  · intro pe hpe
                    rcases List.mem_append.mp hpe with hpe | hpe
                    · exact composeEvents_loopEv hpe
                    · simp only [List.mem_singleton] at hpe
                      simp [hpe, Ev.isLoopEv]
              · simp at h
          · simp at h

/-! ### Loop-level lemmas -/

/-- Every event the capture loop emits is a loop event (in particular the
loop emits none of the finalization or re-encode events). -/
theorem captureLoop_events (env : Env) :
    ∀ fuel s, ∀ pe ∈ (captureLoop env fuel s).tr, pe.2.isLoopEv = true := by
  intro fuel
  induction fuel with
  | zero =>
    intro s pe hpe
    simp [captureLoop] at hpe
  | succ fuel ih =>
    intro s pe hpe
    rcases hstep : loopStep env s with ⟨tr, s'⟩ | ⟨tr, s', ex⟩
    · rw [captureLoop, hstep] at hpe
      dsimp only at hpe
      rcases List.mem_append.mp hpe with hpe | hpe
      · exact (loopStep_cont_spec hstep).2.2.2.1 pe hpe
      · exact ih s' pe hpe
    · rw [captureLoop, hstep] at hpe
      exact (loopStep_halt_spec hstep).2.2.2.1 pe hpe

/-- With a stop flag raised at poll threshold `T`, the loop terminates in
at most `T + 1` iterations: it never runs out of fuel beyond that. -/
theorem captureLoop_halts (env : Env) (T : Nat)
    (hs : ∀ i, env.stop i = decide (T ≤ i)) :
    ∀ fuel s, T - s.polls < fuel → (captureLoop env fuel s).exit ≠ .fuelOut := by
  intro fuel
  induction fuel with
  | zero =>
    intro s h
    omega
  | succ fuel ih =>
    intro s hlt
    by_cases hstop : T ≤ s.polls
    · have hT : env.stop s.polls = true := by
        rw [hs]
        simpa
      rw [captureLoop, loopStep_of_stop hT]
      simp
    · rcases hstep : loopStep env s with ⟨tr, s'⟩ | ⟨tr, s', ex⟩
      · have hp := (loopStep_cont_spec hstep).2.2.2.2
        rw [captureLoop, hstep]
        dsimp only
        exact ih s' (by omega)
      · rw [captureLoop, hstep]
        exact (loopStep_halt_spec hstep).2.2.2.2.1

/-- The loop invariant behind the frame counter: starting from a state
where the counter equals the number of successful writes, the final
counter equals the final write count or exceeds it by exactly one, the
trace contains exactly the writes the counter difference says, and the
write count never decreases. -/
theorem captureLoop_invariant (env : Env) :
    ∀ fuel s, s.frame_count = s.writes →
      ((captureLoop env fuel s).st.frame_count = (captureLoop env fuel s).st.writes ∨
        (captureLoop env fuel s).st.frame_count = (captureLoop env fuel s).st.writes + 1) ∧
      writeTempCount (captureLoop env fuel s).tr =
        (captureLoop env fuel s).st.writes - s.writes ∧
      s.writes ≤ (captureLoop env fuel s).st.writes := by
  intro fuel
  induction fuel with
  | zero =>
    intro s hinv
    refine ⟨Or.inl ?_, ?_, ?_⟩ <;> simp [captureLoop, writeTempCount, hinv]
  | succ fuel ih =>
    intro s hinv
    rcases hstep : loopStep env s with ⟨tr, s'⟩ | ⟨tr, s', ex⟩
    · obtain ⟨-, hst, hcnt, -, -⟩ := loopStep_cont_spec hstep
      have hinv' : s'.frame_count = s'.writes := by
        rcases hst with ⟨h1, h2⟩ | ⟨h1, h2⟩ <;> omega
      obtain ⟨ha, hb, hc⟩ := ih s' hinv'
      rw [captureLoop, hstep]
      dsimp only
      refine ⟨ha, ?_, ?_⟩
      · unfold writeTempCount at hb hcnt ⊢
        rw [List.countP_append, hcnt, hb]
        rcases hst with ⟨h1, _⟩ | ⟨h1, _⟩ <;> omega
      · rcases hst with ⟨h1, _⟩ | ⟨h1, _⟩ <;> omega
    · obtain ⟨-, hst, hcnt, -, -, -⟩ := loopStep_halt_spec hstep
      rw [captureLoop, hstep]
      dsimp only
      refine ⟨?_, hcnt, ?_⟩
      · rcases hst with ⟨h1, h2 | h2⟩ | ⟨h1, h2⟩ <;> omega
      · rcases hst with ⟨h1, _⟩ | ⟨h1, _⟩ <;> omega

/-- Once the stop flag (raised at poll threshold `T`) is set, anything
recorded after a temporary-file write annotated at or past the threshold
contains no further write and no further loop-body entry. -/
theorem captureLoop_clean (env : Env) (T : Nat)
    (hs : ∀ i, env.stop i = decide (T ≤ i)) :
    ∀ fuel s pre a f post,
      (captureLoop env fuel s).tr = pre ++ (a, Ev.writeTemp f) :: post → T ≤ a →
      (∀ b g, (b, Ev.writeTemp g) ∉ post) ∧ (∀ b, (b, Ev.iterEnter) ∉ post) := by
  intro fuel
  induction fuel with
  | zero =>
    intro s pre a f post h _
    simp [captureLoop] at h
  | succ fuel ih =>
    intro s pre a f post h hTa
    rcases hstep : loopStep env s with ⟨tr, s'⟩ | ⟨tr, s', ex⟩
    · rw [captureLoop, hstep] at h
      dsimp only at h
      rcases List.append_eq_append_iff.mp h with ⟨a', _, hb'⟩ | ⟨c', hc', hd'⟩
      · exact ih s' a' a f post hb' hTa
      · cases c' with
        | nil =>
          rw [List.nil_append] at hd'
          exact ih s' [] a f post hd'.symm hTa
        | cons x xs =>
          have hx : (a, Ev.writeTemp f) ∈ tr := by
            rw [hc']
            have : x = (a, Ev.writeTemp f) := (List.cons.injEq _ _ _ _ ▸ hd').1.symm
            rw [this] at hc' ⊢
            exact List.mem_append_right pre (List.mem_cons_self _ _)
          have hfalse := (loopStep_cont_spec hstep).1 a f hx
          rw [hs a] at hfalse
          simp at hfalse
          omega
    · rw [captureLoop, hstep] at h
      dsimp only at h
      by_cases hpost : post = []
      · subst hpost
        exact ⟨by simp, by simp⟩
      · exact absurd (mem_dropLast_of_split h hpost)
          ((loopStep_halt_spec hstep).1 a f)

/-- Once the stop flag (raised at poll threshold `T`) is set, the loop
performs at most one write annotated at or past the threshold. -/
theorem captureLoop_late_writes (env : Env) (T : Nat)
    (hs : ∀ i, env.stop i = decide (T ≤ i)) :
    ∀ fuel s,
      (captureLoop env fuel s).tr.countP
        (fun pe => decide (T ≤ pe.1) && pe.2.isWriteTemp) ≤ 1 := by
  intro fuel
  induction fuel with
  | zero =>
    intro s
    simp [captureLoop]
  | succ fuel ih =>
    intro s
    rcases hstep : loopStep env s with ⟨tr, s'⟩ | ⟨tr, s', ex⟩
    · rw [captureLoop, hstep]
      dsimp only
      rw [List.countP_append]
      have hzero : tr.countP (fun pe => decide (T ≤ pe.1) && pe.2.isWriteTemp) = 0 := by
        rw [List.countP_eq_zero]
        intro pe hpe
        rcases pe with ⟨b, e⟩
        cases e <;> simp [Ev.isWriteTemp]
        rename_i g
        have := (loopStep_cont_spec hstep).1 b g hpe
        rw [hs b] at this
        simp at this
        omega
      rw [hzero]
      simpa using ih s'
    · rw [captureLoop, hstep]
      dsimp only
      calc tr.countP (fun pe => decide (T ≤ pe.1) && pe.2.isWriteTemp)
          ≤ tr.countP (fun pe => pe.2.isWriteTemp) :=
            List.countP_mono_left (fun x _ hx => by
              simp only [Bool.and_eq_true] at hx
              exact hx.2)
        _ = s'.writes - s.writes := (loopStep_halt_spec hstep).2.2.1
        _ ≤ 1 := by
            rcases (loopStep_halt_spec hstep).2.1 with ⟨h1, _⟩ | ⟨h1, _⟩ <;> omega

/-! ### Re-encoder lemmas -/

/-- Every event of the re-encode read-rewrite loop is a final-file write or
the final-writer release, annotated at the ambient poll count. -/
theorem reencLoop_events (wok : Nat → Bool) (p : Nat) :
    ∀ l w, ∀ pe ∈ (reencLoop wok p l w).1,
      pe.1 = p ∧ ((∃ f, pe.2 = Ev.writeFinal f) ∨ pe.2 = Ev.releaseFinalWriter) := by
  intro l
  induction l with
  | nil =>
    intro w pe hpe
    simp [reencLoop] at hpe
    simp [hpe]
  | cons x rest ih =>
    intro w pe hpe
    cases x with
    | eof =>
      simp [reencLoop] at hpe
      simp [hpe]
    | err =>
      simp [reencLoop] at hpe
      simp [hpe]
    | frame f =>
      rw [reencLoop] at hpe
      by_cases hemp : f.isEmpty
      · rw [if_pos hemp] at hpe
        exact ih w pe hpe
      · rw [if_neg hemp] at hpe
        by_cases hwok : wok w
        · rw [if_pos hwok] at hpe
          dsimp only at hpe
          rcases List.mem_cons.mp hpe with hpe | hpe
          · simp [hpe]
          · exact ih (w + 1) pe hpe
        · rw [if_neg hwok] at hpe
          simp at hpe
          simp [hpe]

/-- The read-rewrite loop always releases the final writer. -/
theorem reencLoop_release (wok : Nat → Bool) (p : Nat) :
    ∀ l w, (p, Ev.releaseFinalWriter) ∈ (reencLoop wok p l w).1 := by
  intro l
  induction l with
  | nil =>
    intro w
    simp [reencLoop]
  | cons x rest ih =>
    intro w
    cases x with
    | eof => simp [reencLoop]
    | err => simp [reencLoop]
    | frame f =>
      rw [reencLoop]
      by_cases hemp : f.isEmpty
      · rw [if_pos hemp]
        exact ih w
      · rw [if_neg hemp]
        by_cases hwok : wok w
        · rw [if_pos hwok]
          dsimp only
          exact List.mem_cons_of_mem _ (ih (w + 1))
        · rw [if_neg hwok]
          simp

/-- When the read-rewrite loop succeeds, the frames it wrote are exactly
the valid frames of the stream, in order. -/
theorem reencLoop_ok_writes (wok : Nat → Bool) (p : Nat) :
    ∀ l w, (reencLoop wok p l w).2 = .ok () →
      writtenFinal (reencLoop wok p l w).1 = specValidFrames l := by
  intro l
  induction l with
  | nil =>
    intro w _
    simp [reencLoop, specValidFrames, writtenFinal]
  | cons x rest ih =>
    intro w hok
    cases x with
    | eof => simp [reencLoop, specValidFrames, writtenFinal]
    | err =>
      rw [reencLoop] at hok
      simp at hok
    | frame f =>
      rw [reencLoop] at hok ⊢
      by_cases hemp : f.isEmpty
      · rw [if_pos hemp] at hok ⊢
        rw [specValidFrames, if_pos hemp]
        exact ih w hok
      · rw [if_neg hemp] at hok ⊢
        by_cases hwok : wok w
        · rw [if_pos hwok] at hok ⊢
          dsimp only at hok ⊢
          rw [specValidFrames, if_neg hemp]
          unfold writtenFinal
          rw [List.filterMap_cons]
          dsimp only
          unfold writtenFinal at ih
          rw [ih (w + 1) hok]
        · rw [if_neg hwok] at hok
          simp at hok

/-- Every event of `reencode_video` is one of its four actions, annotated
at the ambient poll count; in particular the final writer is always created
with exactly the rate passed in. -/
theorem reencode_video_events (renv : ReencEnv) (fps : ℚ) (p : Nat) :
    ∀ pe ∈ (reencode_video renv fps p).1,
      pe.1 = p ∧ (pe.2 = Ev.openTempRead ∨
        pe.2 = Ev.openFinalWriter renv.width renv.height fps ∨
        (∃ f, pe.2 = Ev.writeFinal f) ∨ pe.2 = Ev.releaseFinalWriter) := by
  intro pe hpe
  unfold reencode_video at hpe
  split at hpe
  · split at hpe
    · split at hpe
      · split at hpe
        · dsimp only at hpe
          rcases List.mem_append.mp hpe with hpe | hpe
          · simp at hpe
            rcases hpe with hpe | hpe <;> simp [hpe]
          · obtain ⟨h1, h2⟩ := reencLoop_events renv.writeFinalOk p renv.stream 0 pe hpe
            exact ⟨h1, Or.inr (Or.inr h2)⟩
        · simp at hpe
          rcases hpe with hpe | hpe <;> simp [hpe]
      · simp at hpe
        simp [hpe]
    · simp at hpe
      simp [hpe]
  · simp at hpe

/-- When `reencode_video` succeeds, the frames written to the final file
are exactly the valid frames of the temporary stream, in order. -/
theorem reencode_video_ok_writes (renv : ReencEnv) (fps : ℚ) (p : Nat)
    (hok : (reencode_video renv fps p).2 = .ok ()) :
    writtenFinal (reencode_video renv fps p).1 = specValidFrames renv.stream := by
  unfold reencode_video at hok ⊢
  split at hok
  · split at hok
    · split at hok
      · split at hok
        · rename_i h1 h2 h3 h4
          rw [if_pos h1, if_pos h2, if_pos h3, if_pos h4]
          dsimp only at hok ⊢
          unfold writtenFinal
          rw [List.filterMap_append, List.filterMap_cons, List.filterMap_cons]
          dsimp only
          have hw := reencLoop_ok_writes renv.writeFinalOk p renv.stream 0 hok
          unfold writtenFinal at hw
          rw [List.filterMap_nil, List.nil_append]
          exact hw
        · simp at hok
      · simp at hok
    · simp at hok
  · simp at hok

/-- When `reencode_video` succeeds its trace contains the final-writer
release. -/
theorem reencode_video_ok_release (renv : ReencEnv) (fps : ℚ) (p : Nat)
    (hok : (reencode_video renv fps p).2 = .ok ()) :
    (p, Ev.releaseFinalWriter) ∈ (reencode_video renv fps p).1 := by
  unfold reencode_video at hok ⊢
  split at hok
  · split at hok
    · split at hok
      · split at hok
        · rename_i h1 h2 h3 h4
          rw [if_pos h1, if_pos h2, if_pos h3, if_pos h4]
          exact List.mem_append_right _ (reencLoop_release renv.writeFinalOk p renv.stream 0)
        · simp at hok
      · simp at hok
    · simp at hok
  · simp at hok

/-! ### Finalization unfolding lemmas -/

theorem run_recording_blocking_fuelOut (env : Env) (fuel : Nat)
    {ltr : List (Nat × Ev)} {s : LoopState}
    (h : captureLoop env fuel initState = ⟨ltr, s, .fuelOut⟩) :
    run_recording_blocking env fuel = ⟨ltr, .fuelOut⟩ := by
  unfold run_recording_blocking
  rw [h]

theorem run_recording_blocking_errored (env : Env) (fuel : Nat)
    {ltr : List (Nat × Ev)} {s : LoopState} {e : RecError}
    (h : captureLoop env fuel initState = ⟨ltr, s, .errored e⟩) :
    run_recording_blocking env fuel =
      ⟨ltr ++ [(s.polls, .releaseTempWriter)], .err e⟩ := by
  unfold run_recording_blocking
  rw [h]

theorem run_recording_blocking_empty (env : Env) (fuel : Nat)
    {ltr : List (Nat × Ev)} {s : LoopState}
    (h : captureLoop env fuel initState = ⟨ltr, s, .stopped⟩)
    (h0 : s.frame_count = 0) :
    run_recording_blocking env fuel =
      ⟨ltr ++ [(s.polls + 1, .releaseTempWriter), (s.polls + 1, .removeTemp)],
       .err .noFramesRecorded⟩ := by
  unfold run_recording_blocking
  rw [h]
  dsimp only
  rw [if_neg (by omega)]

theorem run_recording_blocking_reencode_err (env : Env) (fuel : Nat)
    {ltr : List (Nat × Ev)} {s : LoopState} {e : ReencError}
    (h : captureLoop env fuel initState = ⟨ltr, s, .stopped⟩)
    (h0 : 0 < s.frame_count)
    (hre : (reencode_video env.reenc (real_fps s.frame_count env.elapsed)
        (s.polls + 1)).2 = .error e) :
    run_recording_blocking env fuel =
      ⟨ltr ++ [(s.polls + 1, .releaseTempWriter)] ++
        (reencode_video env.reenc (real_fps s.frame_count env.elapsed) (s.polls + 1)).1,
       .err (.reencodeFailed e)⟩ := by
  unfold run_recording_blocking
  rw [h]
  dsimp only
  rw [if_pos h0, hre]

theorem run_recording_blocking_reencode_ok (env : Env) (fuel : Nat)
    {ltr : List (Nat × Ev)} {s : LoopState}
    (h : captureLoop env fuel initState = ⟨ltr, s, .stopped⟩)
    (h0 : 0 < s.frame_count)
    (hre : (reencode_video env.reenc (real_fps s.frame_count env.elapsed)
        (s.polls + 1)).2 = .ok ()) :
    run_recording_blocking env fuel =
      ⟨ltr ++ [(s.polls + 1, .releaseTempWriter)] ++
        (reencode_video env.reenc (real_fps s.frame_count env.elapsed) (s.polls + 1)).1 ++
        [(s.polls + 1, .removeTemp)],
       if env.removeTempOk then .ok else .err .removeTempFailed⟩ := by
  unfold run_recording_blocking
  rw [h]
  dsimp only
  rw [if_pos h0, hre]
  dsimp only
  split <;> rfl

/-- Any final-writer creation event in a stop-exit run carries exactly the
`real_fps` rate computed from the loop counter and the elapsed time. -/
theorem run_openFinal_rate (env : Env) (fuel : Nat)
    {ltr : List (Nat × Ev)} {s : LoopState}
    (h : captureLoop env fuel initState = ⟨ltr, s, .stopped⟩)
    {q w ht : Nat} {fps : ℚ}
    (hmem : (q, Ev.openFinalWriter w ht fps) ∈ (run_recording_blocking env fuel).tr) :
    fps = real_fps s.frame_count env.elapsed := by
  have hloop : ∀ pe ∈ ltr, (pe : Nat × Ev).2.isLoopEv = true := by
    intro pe hpe
    have := captureLoop_events env fuel initState pe (by rw [h]; exact hpe)
    exact this
  by_cases h0 : 0 < s.frame_count
  · rcases hre : (reencode_video env.reenc (real_fps s.frame_count env.elapsed)
        (s.polls + 1)).2 with e | u
    · rw [run_recording_blocking_reencode_err env fuel h h0 hre] at hmem
      dsimp only at hmem
      rcases List.mem_append.mp hmem with hm | hm
      · rcases List.mem_append.mp hm with hm | hm
        · have := hloop _ hm
          simp [Ev.isLoopEv] at this
        · simp at hm
      · obtain ⟨-, hcase⟩ := reencode_video_events env.reenc _ _ _ hm
        rcases hcase with hc | hc | ⟨f, hc⟩ | hc
        · simp at hc
        · simp only [Ev.openFinalWriter.injEq] at hc
          exact hc.2.2
        · simp at hc
        · simp at hc
    · cases u
      rw [run_recording_blocking_reencode_ok env fuel h h0 hre] at hmem
      dsimp only at hmem
      rcases List.mem_append.mp hmem with hm | hm
      · rcases List.mem_append.mp hm with hm | hm
        · rcases List.mem_append.mp hm with hm | hm
          · have := hloop _ hm
            simp [Ev.isLoopEv] at this
          · simp at hm
        · obtain ⟨-, hcase⟩ := reencode_video_events env.reenc _ _ _ hm
          rcases hcase with hc | hc | ⟨f, hc⟩ | hc
          · simp at hc
          · simp only [Ev.openFinalWriter.injEq] at hc
            exact hc.2.2
          · simp at hc
          · simp at hc
      · simp at hm
  · rw [run_recording_blocking_empty env fuel h (by omega)] at hmem
    dsimp only at hmem
    rcases List.mem_append.mp hmem with hm | hm
    · have := hloop _ hm
      simp [Ev.isLoopEv] at this
    · simp at hm

/-! ### Claim theorems -/

/-- C1: once the shared stop flag is set (raised at poll threshold `T`),
the capture loop performs at most one more frame write to the temporary
writer — after a write annotated at or past the threshold no further write
and no further loop-body entry occurs — and the loop terminates (it cannot
run out of fuel once the fuel exceeds the threshold). -/
theorem cancellation_honored (env : Env) (T fuel : Nat)
    (hs : ∀ i, env.stop i = decide (T ≤ i)) :
    ((captureLoop env fuel initState).tr.countP
        (fun pe => decide (T ≤ pe.1) && pe.2.isWriteTemp) ≤ 1) ∧
    (∀ pre a f post,
      (captureLoop env fuel initState).tr = pre ++ (a, Ev.writeTemp f) :: post →
      T ≤ a →
      (∀ b g, (b, Ev.writeTemp g) ∉ post) ∧ (∀ b, (b, Ev.iterEnter) ∉ post)) ∧
    (T < fuel → (captureLoop env fuel initState).exit ≠ .fuelOut) :=
  ⟨captureLoop_late_writes env T hs fuel initState,
   fun pre a f post h hTa => captureLoop_clean env T hs fuel initState pre a f post h hTa,
   fun hTf => captureLoop_halts env T hs fuel initState
     (by dsimp only [initState]; omega)⟩

theorem cancellation_honored_check :
    ((captureLoop envG 3 initState).tr.countP
        (fun pe => decide (2 ≤ pe.1) && pe.2.isWriteTemp) ≤ 1) ∧
    (captureLoop envG 3 initState).exit ≠ .fuelOut ∧
    (∀ b g, (b, Ev.writeTemp g) ∉ ([] : List (Nat × Ev))) :=
  ⟨(cancellation_honored envG 2 3 (fun _ => rfl)).1,
   (cancellation_honored envG 2 3 (fun _ => rfl)).2.2 (by decide),
   ((cancellation_honored envG 2 3 (fun _ => rfl)).2.1
      [(1, Ev.iterEnter)] 2 ⟨2560, 720, 0⟩ [] (by decide) (by decide)).1⟩

/-- C2: on a stop-flag exit, every final-writer creation event carries
exactly the computed `real_fps`; and `real_fps` equals
`frame_count / elapsed` when at least one frame was counted and elapsed
time is positive, and falls back to `REQUESTED_FPS` (24) otherwise. -/
theorem observed_rate_stamped (env : Env) (fuel : Nat)
    {ltr : List (Nat × Ev)} {s : LoopState}
    (h : captureLoop env fuel initState = ⟨ltr, s, .stopped⟩) :
    (∀ q w ht fps,
      (q, Ev.openFinalWriter w ht fps) ∈ (run_recording_blocking env fuel).tr →
      fps = real_fps s.frame_count env.elapsed) ∧
    (0 < s.frame_count → 0 < env.elapsed →
      real_fps s.frame_count env.elapsed = (s.frame_count : ℚ) / env.elapsed) ∧
    (s.frame_count = 0 ∨ env.elapsed ≤ 0 →
      real_fps s.frame_count env.elapsed = REQUESTED_FPS) := by
  refine ⟨fun q w ht fps hm => run_openFinal_rate env fuel h hm, ?_, ?_⟩
  · intro hn he
    rw [real_fps, if_pos ⟨he, hn⟩]
  · intro hcase
    rw [real_fps, if_neg]
    rintro ⟨he, hn⟩
    rcases hcase with h1 | h1
    · omega
    · exact absurd he (not_lt.mpr h1)

theorem observed_rate_stamped_check :
    (∀ q w ht fps,
      (q, Ev.openFinalWriter w ht fps) ∈ (run_recording_blocking envG 3).tr →
      fps = real_fps 1 2) ∧
    real_fps 1 2 = ((1 : Nat) : ℚ) / 2 := by
  have h := observed_rate_stamped envG 3
    (by decide : captureLoop envG 3 initState =
      ⟨[(1, .iterEnter), (2, .writeTemp ⟨2560, 720, 0⟩)], ⟨3, 1, 1, 1, 1⟩, .stopped⟩)
  exact ⟨fun q w ht fps hm => h.1 q w ht fps hm, h.2.1 (by decide) (by decide)⟩

/-- C3: a stop-flag exit with zero counted frames skips re-encoding
entirely (no temporary-file read-open, no final-writer creation, no
final-file write), removes the temporary file, and returns the distinct
`noFramesRecorded` failure, never success. -/
theorem empty_session_fails (env : Env) (fuel : Nat)
    {ltr : List (Nat × Ev)} {s : LoopState}
    (h : captureLoop env fuel initState = ⟨ltr, s, .stopped⟩)
    (h0 : s.frame_count = 0) :
    (run_recording_blocking env fuel).out = .err .noFramesRecorded ∧
    (run_recording_blocking env fuel).out ≠ .ok ∧
    (s.polls + 1, Ev.removeTemp) ∈ (run_recording_blocking env fuel).tr ∧
    (∀ q, (q, Ev.openTempRead) ∉ (run_recording_blocking env fuel).tr) ∧
    (∀ q w ht fps,
      (q, Ev.openFinalWriter w ht fps) ∉ (run_recording_blocking env fuel).tr) ∧
    (∀ q f, (q, Ev.writeFinal f) ∉ (run_recording_blocking env fuel).tr) := by
  have hloop : ∀ pe ∈ ltr, (pe : Nat × Ev).2.isLoopEv = true := by
    intro pe hpe
    exact captureLoop_events env fuel initState pe (by rw [h]; exact hpe)
  rw [run_recording_blocking_empty env fuel h h0]
  refine ⟨rfl, by simp, by simp, ?_, ?_, ?_⟩
  · intro q hq
    dsimp only at hq
    rcases List.mem_append.mp hq with hq | hq
    · have := hloop _ hq
      simp [Ev.isLoopEv] at this
    · simp at hq
  · intro q w ht fps hq
    dsimp only at hq
    rcases List.mem_append.mp hq with hq | hq
    · have := hloop _ hq
      simp [Ev.isLoopEv] at this
    · simp at hq
  · intro q f hq
    dsimp only at hq
    rcases List.mem_append.mp hq with hq | hq
    · have := hloop _ hq
      simp [Ev.isLoopEv] at this
    · simp at hq

theorem empty_session_fails_check :
    (run_recording_blocking envE 1).out = .err .noFramesRecorded ∧
    (2, Ev.removeTemp) ∈ (run_recording_blocking envE 1).tr ∧
    (∀ q, (q, Ev.openTempRead) ∉ (run_recording_blocking envE 1).tr) := by
  have h := @empty_session_fails envE 1 [] ⟨1, 0, 0, 0, 0⟩ (by decide) rfl
  exact ⟨h.1, h.2.2.1, h.2.2.2.1⟩

/-- C5: when `reencode_video` succeeds, the frames it wrote to the final
file are, in order, exactly the valid (non-empty) frames read sequentially
from the temporary file, with empty frames skipped mid-stream — no
reordering, no duplication. -/
theorem reencode_preserves_frames (renv : ReencEnv) (fps : ℚ) (p : Nat)
    (hok : (reencode_video renv fps p).2 = .ok ()) :
    writtenFinal (reencode_video renv fps p).1 = specValidFrames renv.stream :=
  reencode_video_ok_writes renv fps p hok

theorem reencode_preserves_frames_check :
    (reencode_video renvC5 (1 / 2) 0).2 = .ok () ∧
    writtenFinal (reencode_video renvC5 (1 / 2) 0).1 = specValidFrames renvC5.stream ∧
    specValidFrames renvC5.stream = [⟨2560, 720, 5⟩, ⟨2560, 720, 7⟩] :=
  ⟨by decide, reencode_preserves_frames renvC5 (1 / 2) 0 (by decide), by decide⟩

/-- C4 (code defect witness): with both cameras delivering 640x480 frames
the dimension-mismatch branch fires (the warning event appears), but the
source resizes into an immediately discarded clone
(`imgproc::resize(&frame0, &mut frame0.clone(), ..)`), so the frames are
left unresized and the composite actually written is 1280x480 — not the
2x1280 by 720 that the warning message announces and the spec requires. -/
theorem composite_dimension_bug :
    writtenTemp (captureLoop envC4 3 initState).tr = [⟨1280, 480, Nat.pair 0 0⟩] ∧
    (1, Ev.resizeWarn) ∈ (captureLoop envC4 3 initState).tr ∧
    ∀ f ∈ writtenTemp (captureLoop envC4 3 initState).tr,
      ¬(f.cols = 2 * FRAME_WIDTH ∧ f.rows = FRAME_HEIGHT) := by
  decide

/-- C6: on every exit path of the run, any temporary-file read-open event
is preceded in the trace by the temporary-writer release, and every
completed run (every exit except fuel exhaustion, which models the loop
still being in progress) contains the release. -/
theorem temp_writer_released_first (env : Env) (fuel : Nat) :
    (∀ pre q post,
      (run_recording_blocking env fuel).tr = pre ++ (q, Ev.openTempRead) :: post →
      ∃ r, (r, Ev.releaseTempWriter) ∈ pre) ∧
    ((run_recording_blocking env fuel).out ≠ .fuelOut →
      ∃ r, (r, Ev.releaseTempWriter) ∈ (run_recording_blocking env fuel).tr) := by
  rcases hcap : captureLoop env fuel initState with ⟨ltr, s, ex⟩
  have hloop : ∀ pe ∈ ltr, (pe : Nat × Ev).2.isLoopEv = true := by
    intro pe hpe
    exact captureLoop_events env fuel initState pe (by rw [hcap]; exact hpe)
  have hnotmp : ∀ q, (q, Ev.openTempRead) ∉ ltr := by
    intro q hq
    have := hloop _ hq
    simp [Ev.isLoopEv] at this
  cases ex with
  | fuelOut =>
    rw [run_recording_blocking_fuelOut env fuel hcap]
    refine ⟨?_, fun hout => absurd rfl hout⟩
    intro pre q post heq
    dsimp only at heq
    have hmem : (q, Ev.openTempRead) ∈ ltr := by
      rw [heq]
      exact List.mem_append_right pre (List.mem_cons_self _ _)
    exact absurd hmem (hnotmp q)
  | errored e =>
    rw [run_recording_blocking_errored env fuel hcap]
    refine ⟨?_, fun _ => ⟨s.polls, by simp⟩⟩
    intro pre q post heq
    dsimp only at heq
    have hmem : (q, Ev.openTempRead) ∈ ltr ++ [(s.polls, Ev.releaseTempWriter)] := by
      rw [heq]
      exact List.mem_append_right pre (List.mem_cons_self _ _)
    rcases List.mem_append.mp hmem with hm | hm
    · exact absurd hm (hnotmp q)
    · simp at hm
  | stopped =>
    have hyc : ∀ q, (q, Ev.openTempRead) ∉
        ltr ++ [(s.polls + 1, Ev.releaseTempWriter)] := by
      intro q hm
      rcases List.mem_append.mp hm with hm | hm
      · exact absurd hm (hnotmp q)
      · simp at hm
    by_cases h0 : 0 < s.frame_count
    · rcases hre : (reencode_video env.reenc (real_fps s.frame_count env.elapsed)
          (s.polls + 1)).2 with e | u
      · rw [run_recording_blocking_reencode_err env fuel hcap h0 hre]
        refine ⟨?_, fun _ => ⟨s.polls + 1, by simp⟩⟩
        intro pre q post heq
        dsimp only at heq
        exact ⟨s.polls + 1, mem_left_of_append_split heq (hyc q)
          (List.mem_append_right ltr (List.mem_cons_self _ _))⟩
      · cases u
        rw [run_recording_blocking_reencode_ok env fuel hcap h0 hre]
        refine ⟨?_, fun _ => ⟨s.polls + 1, by simp⟩⟩
        intro pre q post heq
        dsimp only at heq
        rw [List.append_assoc (ltr ++ [(s.polls + 1, Ev.releaseTempWriter)])] at heq
        exact ⟨s.polls + 1, mem_left_of_append_split heq (hyc q)
          (List.mem_append_right ltr (List.mem_cons_self _ _))⟩
    · rw [run_recording_blocking_empty env fuel hcap (by omega)]
      refine ⟨?_, fun _ => ⟨s.polls + 1, by simp⟩⟩
      intro pre q post heq
      dsimp only at heq
      have hmem : (q, Ev.openTempRead) ∈ ltr ++
          [(s.polls + 1, Ev.releaseTempWriter), (s.polls + 1, Ev.removeTemp)] := by
        rw [heq]
        exact List.mem_append_right pre (List.mem_cons_self _ _)
      rcases List.mem_append.mp hmem with hm | hm
      · exact absurd hm (hnotmp q)
      · simp at hm

theorem temp_writer_released_first_check :
    (∃ r, (r, Ev.releaseTempWriter) ∈ (run_recording_blocking envG 3).tr) ∧
    (∃ r, (r, Ev.releaseTempWriter) ∈
      [(1, Ev.iterEnter), (2, Ev.writeTemp ⟨2560, 720, 0⟩),
       (4, Ev.releaseTempWriter)]) :=
  ⟨(temp_writer_released_first envG 3).2 (by decide),
   (temp_writer_released_first envG 3).1
     [(1, Ev.iterEnter), (2, Ev.writeTemp ⟨2560, 720, 0⟩),
      (4, Ev.releaseTempWriter)]
     4
     [(4, Ev.openFinalWriter 2560 720 (real_fps 1 2)), (4, Ev.writeFinal ⟨2560, 720, 0⟩),
      (4, Ev.releaseFinalWriter), (4, Ev.removeTemp)]
     rfl⟩

/-- C7 counterexample: the loop's camera reads use `?` on the returned
`Result`, so a read call that itself returns an error is propagated to the
caller — a mid-loop frame-read failure of this kind is surfaced, refuting
"never surfaced to the caller". -/
theorem read_error_surfaced :
    (run_recording_blocking envErr 1).out = .err .readCam0Failed ∧
    (1, Ev.iterEnter) ∈ (run_recording_blocking envErr 1).tr := by
  decide

/-- C7 (amended): a read that completes without delivering a frame, or
that delivers an empty frame, is non-fatal: the iteration emits the
diagnostic, checks the stop flag, and — if not stopped — sleeps 50 ms and
retries, leaving the frame counter and write counter untouched; if the
flag was set it exits the loop.  (A read whose call itself returns an
error is instead propagated, per the counterexample.) -/
theorem transient_skip_retries (env : Env) (s : LoopState) {o0 o1 : Option Frame}
    (h0 : env.stop s.polls = false)
    (hc0 : env.cam0 s.r0 = .ok o0) (hc1 : env.cam1 s.r1 = .ok o1)
    (hbad : badRead o0 o1 = true) :
    loopStep env s =
      if env.stop (s.polls + 1) then
        .halt [(s.polls + 1, .iterEnter), (s.polls + 1, .readFailSkip)]
          ⟨s.polls + 2, s.r0 + 1, s.r1 + 1, s.writes, s.frame_count⟩ .stopped
      else
        .cont [(s.polls + 1, .iterEnter), (s.polls + 1, .readFailSkip),
               (s.polls + 2, .sleepMs 50)]
          ⟨s.polls + 2, s.r0 + 1, s.r1 + 1, s.writes, s.frame_count⟩ := by
  by_cases h1 : env.stop (s.polls + 1) <;>
    simp [loopStep, h0, hc0, hc1, hbad, h1]

theorem transient_skip_retries_check :
    loopStep envR initState =
      .cont [(1, Ev.iterEnter), (1, Ev.readFailSkip), (2, Ev.sleepMs 50)]
        ⟨2, 1, 1, 0, 0⟩ := by
  have h := @transient_skip_retries envR initState none (some ⟨1280, 720, 1⟩)
    rfl rfl rfl (by decide)
  rw [h]
  decide

/-- C8: if the capture loop aborts because a temporary-file frame write
failed, the error propagates to the caller unchanged, the temporary writer
is released by the guard during unwind, and no re-encode action
(temporary-file read-open, final-writer creation, final-file write) is
attempted. -/
theorem write_failure_aborts (env : Env) (fuel : Nat)
    {ltr : List (Nat × Ev)} {s : LoopState}
    (h : captureLoop env fuel initState = ⟨ltr, s, .errored .writeTempFailed⟩) :
    run_recording_blocking env fuel =
      ⟨ltr ++ [(s.polls, Ev.releaseTempWriter)], .err .writeTempFailed⟩ ∧
    (∀ q, (q, Ev.openTempRead) ∉ (run_recording_blocking env fuel).tr) ∧
    (∀ q w ht fps,
      (q, Ev.openFinalWriter w ht fps) ∉ (run_recording_blocking env fuel).tr) ∧
    (∀ q f, (q, Ev.writeFinal f) ∉ (run_recording_blocking env fuel).tr) := by
  have hloop : ∀ pe ∈ ltr, (pe : Nat × Ev).2.isLoopEv = true := by
    intro pe hpe
    exact captureLoop_events env fuel initState pe (by rw [h]; exact hpe)
  have hrun := run_recording_blocking_errored env fuel h
  rw [hrun]
  refine ⟨rfl, ?_, ?_, ?_⟩
  · intro q hq
    dsimp only at hq
    rcases List.mem_append.mp hq with hq | hq
    · have := hloop _ hq
      simp [Ev.isLoopEv] at this
    · simp at hq
  · intro q w ht fps hq
    dsimp only at hq
    rcases List.mem_append.mp hq with hq | hq
    · have := hloop _ hq
      simp [Ev.isLoopEv] at this
    · simp at hq
  · intro q f hq
    dsimp only at hq
    rcases List.mem_append.mp hq with hq | hq
    · have := hloop _ hq
      simp [Ev.isLoopEv] at this
    · simp at hq

theorem write_failure_aborts_check :
    run_recording_blocking envW 1 =
      ⟨[(1, Ev.iterEnter), (2, Ev.releaseTempWriter)], .err .writeTempFailed⟩ := by
  have h := @write_failure_aborts envW 1 [(1, Ev.iterEnter)] ⟨2, 1, 1, 0, 1⟩ (by decide)
  exact h.1

/-- C9: when re-encoding is attempted (at least one frame counted), the
temporary file is removed exactly when the re-encode succeeded: on failure
the error propagates as `reencodeFailed` and no removal event occurs —
the temporary file is left in place; on success the removal event follows
the re-encode (both the temporary-writer release and the final-writer
release precede it in the trace). -/
theorem temp_removed_after_reencode (env : Env) (fuel : Nat)
    {ltr : List (Nat × Ev)} {s : LoopState}
    (h : captureLoop env fuel initState = ⟨ltr, s, .stopped⟩)
    (h0 : 0 < s.frame_count) :
    (∀ e, (reencode_video env.reenc (real_fps s.frame_count env.elapsed)
        (s.polls + 1)).2 = .error e →
      (run_recording_blocking env fuel).out = .err (.reencodeFailed e) ∧
      ∀ q, (q, Ev.removeTemp) ∉ (run_recording_blocking env fuel).tr) ∧
    ((reencode_video env.reenc (real_fps s.frame_count env.elapsed)
        (s.polls + 1)).2 = .ok () →
      ∃ pre post,
        (run_recording_blocking env fuel).tr =
          pre ++ (s.polls + 1, Ev.removeTemp) :: post ∧
        (s.polls + 1, Ev.releaseFinalWriter) ∈ pre ∧
        (s.polls + 1, Ev.releaseTempWriter) ∈ pre) := by
  have hloop : ∀ pe ∈ ltr, (pe : Nat × Ev).2.isLoopEv = true := by
    intro pe hpe
    exact captureLoop_events env fuel initState pe (by rw [h]; exact hpe)
  constructor
  · intro e hre
    rw [run_recording_blocking_reencode_err env fuel h h0 hre]
    refine ⟨rfl, ?_⟩
    intro q hq
    dsimp only at hq
    rcases List.mem_append.mp hq with hq | hq
    · rcases List.mem_append.mp hq with hq | hq
      · have := hloop _ hq
        simp [Ev.isLoopEv] at this
      · simp at hq
    · obtain ⟨-, hcase⟩ := reencode_video_events env.reenc _ _ _ hq
      rcases hcase with hc | hc | ⟨f, hc⟩ | hc <;> simp at hc
  · intro hre
    rw [run_recording_blocking_reencode_ok env fuel h h0 hre]
    refine ⟨ltr ++ [(s.polls + 1, Ev.releaseTempWriter)] ++
      (reencode_video env.reenc (real_fps s.frame_count env.elapsed) (s.polls + 1)).1,
      [], rfl, ?_, ?_⟩
    · exact List.mem_append_right _
        (reencode_video_ok_release env.reenc _ _ hre)
    · exact List.mem_append_left _
        (List.mem_append_right ltr (List.mem_cons_self _ _))

theorem temp_removed_after_reencode_check :
    ∃ pre post,
      (run_recording_blocking envG 3).tr = pre ++ (4, Ev.removeTemp) :: post ∧
      (4, Ev.releaseFinalWriter) ∈ pre ∧ (4, Ev.releaseTempWriter) ∈ pre := by
  have h := @temp_removed_after_reencode envG 3
    [(1, Ev.iterEnter), (2, Ev.writeTemp ⟨2560, 720, 0⟩)] ⟨3, 1, 1, 1, 1⟩
    (by decide) (by decide)
  exact h.2 (by decide)

/-- C10: at loop exit the frame counter equals the number of frames
actually written to the temporary writer or exceeds it by exactly one (the
counter is incremented before the pre-write stop check, so a counted frame
may remain unwritten); the trace confirms the write count; and on a
stop-flag exit both the zero-frames failure check and the stamped rate are
functions of this counter. -/
theorem frame_count_write_invariant (env : Env) (fuel : Nat) :
    ((captureLoop env fuel initState).st.frame_count =
        (captureLoop env fuel initState).st.writes ∨
      (captureLoop env fuel initState).st.frame_count =
        (captureLoop env fuel initState).st.writes + 1) ∧
    writeTempCount (captureLoop env fuel initState).tr =
      (captureLoop env fuel initState).st.writes ∧
    ((captureLoop env fuel initState).exit = .stopped →
      ((run_recording_blocking env fuel).out = .err .noFramesRecorded ↔
        (captureLoop env fuel initState).st.frame_count = 0)) ∧
    ((captureLoop env fuel initState).exit = .stopped →
      ∀ q w ht fps,
        (q, Ev.openFinalWriter w ht fps) ∈ (run_recording_blocking env fuel).tr →
        fps = real_fps (captureLoop env fuel initState).st.frame_count env.elapsed) := by
  obtain ⟨ha, hb, -⟩ := captureLoop_invariant env fuel initState rfl
  refine ⟨ha, ?_, ?_, ?_⟩
  · rw [hb]
    dsimp only [initState]
    omega
  · intro hst
    rcases hcap : captureLoop env fuel initState with ⟨ltr, s, ex⟩
    rw [hcap] at hst
    dsimp only at hst
    subst hst
    dsimp only
    by_cases h0 : s.frame_count = 0
    · rw [run_recording_blocking_empty env fuel hcap h0]
      simp [h0]
    · constructor
      · intro hout
        exfalso
        rcases hre : (reencode_video env.reenc (real_fps s.frame_count env.elapsed)
            (s.polls + 1)).2 with e | u
        · rw [run_recording_blocking_reencode_err env fuel hcap (by omega) hre] at hout
          simp at hout
        · cases u
          rw [run_recording_blocking_reencode_ok env fuel hcap (by omega) hre] at hout
          dsimp only at hout
          by_cases hrm : env.removeTempOk <;> simp [hrm] at hout
      · intro h0'
        exact absurd h0' h0
  · intro hst q w ht fps hm
    rcases hcap : captureLoop env fuel initState with ⟨ltr, s, ex⟩
    rw [hcap] at hst
    dsimp only at hst
    subst hst
    dsimp only
    exact run_openFinal_rate env fuel hcap hm

theorem frame_count_write_invariant_check :
    writeTempCount (captureLoop envG 3 initState).tr =
      (captureLoop envG 3 initState).st.writes ∧
    ((run_recording_blocking envG 3).out = .err .noFramesRecorded ↔
      (captureLoop envG 3 initState).st.frame_count = 0) :=
  ⟨(frame_count_write_invariant envG 3).2.1,
   (frame_count_write_invariant envG 3).2.2.1 (by decide)⟩

end CameraHandler
